import Mathlib

/-! Verification of grab: release resolution, asset selection and download.

A shallow embedding of `main.go`.  The program is one sequential script whose
only inputs are the command line, the answers of the GitHub API, one line of
standard input and the results of a few file-system and HTTP calls.  All of
these are gathered in a `World`; a run of the program is a value of `Run`,
the list of observable events performed so far together with the way the run
ended (normal return, `log.Fatal` exit, or Go run-time fault).

Go strings are modelled by Lean strings (sequences of Unicode code points).
-/

namespace Grab

/-! ## Library functions used by the program -/

/-- Go `unicode.IsSpace`: the Latin-1 spaces `\t \n \v \f \r`, space, U+0085,
U+00A0, and the other code points with the White_Space property. -/
def isSpace (c : Char) : Bool :=
  let n := c.toNat
  (9 ≤ n && n ≤ 13) || n == 32 || n == 133 || n == 160 || n == 5760 ||
  (8192 ≤ n && n ≤ 8202) || n == 8232 || n == 8233 || n == 8239 || n == 8287 ||
  n == 12288

/-- Go `strings.TrimSpace`: drop leading and trailing white space. -/
def TrimSpace (s : String) : String :=
  ⟨((s.data.dropWhile isSpace).reverse.dropWhile isSpace).reverse⟩

/-- Worker of `Split`: `cur` holds, reversed, the segment being read. -/
def splitAux : List Char → List Char → List (List Char)
  | [], cur => [cur.reverse]
  | c :: cs, cur =>
    if c = '/' then cur.reverse :: splitAux cs [] else splitAux cs (c :: cur)

/-- Go `strings.Split(s, "/")`: the substrings between the separators; always
at least one segment (the empty string splits into one empty segment). -/
def Split (s : String) : List String :=
  (splitAux s.data []).map String.mk

/-- Go `strings.Join(elems, sep)`. -/
def Join (elems : List String) (sep : String) : String :=
  sep.intercalate elems

/-- Worker of `ReadString`: everything up to and including the first newline,
or the whole input when it ends before a newline. -/
def readStringAux : List Char → List Char
  | [] => []
  | c :: cs => if c = '\n' then [c] else c :: readStringAux cs

/-- Go `bufio.Reader.ReadString('\n')` on a reader holding `input`; the error
returned at end of input is dropped by the caller and so is not modelled. -/
def ReadString (input : String) : String :=
  ⟨readStringAux input.data⟩

/-- Width of the Go type `int` (a 64-bit platform). -/
def intSize : Nat := 64

/-- Two's complement wrap-around of an `int` result. -/
def wrapInt (x : Int) : Int :=
  (x + 2 ^ (intSize - 1)) % 2 ^ intSize - 2 ^ (intSize - 1)

/-- Value of a decimal digit, `none` for any other character. -/
def digitVal (c : Char) : Option Nat :=
  if 48 ≤ c.toNat ∧ c.toNat ≤ 57 then some (c.toNat - 48) else none

/-- Value of a string of decimal digits read left to right, starting from
`acc`; `none` when a character is not a digit. -/
def parseDigits : List Char → Nat → Option Nat
  | [], acc => some acc
  | c :: cs, acc =>
    match digitVal c with
    | some d => parseDigits cs (acc * 10 + d)
    | none => none

/-- Magnitude parsed by `Atoi`: at least one character, all decimal digits. -/
def parseMagnitude (ds : List Char) : Option Nat :=
  if ds = [] then none else parseDigits ds 0

/-- Go `strconv.Atoi`: an optional sign followed by one or more decimal
digits, in the range of `int`; `none` stands for a non-nil error. -/
def Atoi (s : String) : Option Int :=
  match s.data with
  | [] => none
  | c :: cs =>
    if c = '-' then
      match parseMagnitude cs with
      | some n => if n ≤ 2 ^ (intSize - 1) then some (-(n : Int)) else none
      | none => none
    else
      match parseMagnitude (if c = '+' then cs else c :: cs) with
      | some n => if n < 2 ^ (intSize - 1) then some (n : Int) else none
      | none => none

/-- Go `path.Split`: the text up to and including the last slash, and the
text after it. -/
def pathSplit (p : String) : String × String :=
  let file := (p.data.reverse.takeWhile (fun c => c ≠ '/')).reverse
  (⟨p.data.take (p.data.length - file.length)⟩, ⟨file⟩)

/-! ## Data -/

/-- The fields of `github.ReleaseAsset` the program reads. -/
structure ReleaseAsset where
  Name : String
  BrowserDownloadURL : String
  deriving DecidableEq, Repr

/-- The field of `github.RepositoryRelease` the program reads. -/
structure RepositoryRelease where
  Assets : List ReleaseAsset
  deriving DecidableEq, Repr

/-- The fields of `github.RepositoryTag` the program reads (`Name` and
`Commit.SHA`). -/
structure RepositoryTag where
  Name : String
  CommitSHA : String
  deriving DecidableEq, Repr

/-- Result `(value, resp, err)` of a go-github call.  `ok v`: `err == nil`.
`fail resp err`: `err != nil` with error text `err`, the value is nil, and
`resp` is the HTTP status code of the response, or `none` when there is no
response (`resp == nil`). -/
inductive ApiResult (α : Type) where
  | ok (v : α)
  | fail (resp : Option Nat) (err : String)

/-- Everything outside the program that a run depends on. -/
structure World where
  /-- Value of `runtime.GOOS`. -/
  goos : String
  /-- Result of `os.Getwd()`: the directory, or the error text. -/
  getwd : Except String String
  /-- `client.Repositories.Get(owner, repo)`. -/
  reposGet : String → String → ApiResult Unit
  /-- `client.Repositories.GetLatestRelease(owner, repo)`. -/
  getLatestRelease : String → String → ApiResult RepositoryRelease
  /-- `client.Repositories.ListTags(owner, repo, nil)`. -/
  listTags : String → String → ApiResult (List RepositoryTag)
  /-- `client.Repositories.GetReleaseByTag(owner, repo, tag)`. -/
  getReleaseByTag : String → String → String → ApiResult RepositoryRelease
  /-- Content of standard input. -/
  stdin : String
  /-- `url.Parse(s)`: the `Path` of the parsed URL, or the error text. -/
  urlParse : String → Except String String
  /-- `os.Create(name)`: `none` on success, else the error text. -/
  create : String → Option String
  /-- `http.Get(url)`: `none` on success, else the error text. -/
  httpGet : String → Option String
  /-- `io.Copy(out, progress)` of the body of `url` into the file `name`:
  `none` on success, else the error text. -/
  copy : String → String → Option String
  /-- `os.Chmod(name, mode)`: `none` on success, else the error text. -/
  chmod : String → Nat → Option String

/-- The command line as `flag.Parse` reads it: the value given with `-r` and
with `-p` (`none` when the flag is absent), the value of `-d`, and the
remaining arguments `flag.Args()`. -/
structure CommandLine where
  r : Option String
  p : Option String
  d : Bool
  args : List String

/-- The three flag variables after `flag.Parse`; `flag.String("r", "", ..)`
and `flag.String("p", "", ..)` have default `""`, `flag.Bool("d", false, ..)`
has default `false`. -/
structure Flags where
  rename : String
  path : String
  dryRun : Bool

/-- Values of the flag variables for a command line (lines 41-48). -/
def flagParse (cl : CommandLine) : Flags :=
  ⟨cl.r.getD "", cl.p.getD "", cl.d⟩

/-! ## Runs -/

/-- Observable steps of a run. -/
inductive Event where
  /-- A line logged with `log.Info` or `log.Infof`. -/
  | log (msg : String)
  /-- Text written with `fmt.Print` or `println`. -/
  | out (msg : String)
  /-- Request `Repositories.Get`. -/
  | apiRepo (owner repo : String)
  /-- Request `Repositories.GetLatestRelease`. -/
  | apiLatest (owner repo : String)
  /-- Request `Repositories.ListTags`. -/
  | apiTags (owner repo : String)
  /-- Request `Repositories.GetReleaseByTag`. -/
  | apiByTag (owner repo tag : String)
  /-- One `ReadString` on standard input. -/
  | readInput
  /-- Entry into `downloadReleaseAsset` with its three arguments. -/
  | download (r : ReleaseAsset) (newName newPath : Option String)
  /-- Call of `os.Create`. -/
  | create (name : String)
  /-- Call of `http.Get`. -/
  | httpGet (url : String)
  /-- Call of `io.Copy` from the body of `url` into the file `name`. -/
  | copy (url name : String)
  /-- Call of `os.Chmod`. -/
  | chmod (name : String) (mode : Nat)
  deriving DecidableEq, Repr

/-- How a run ends: `ret a` normal completion with value `a`; `fatal msg`
the message was logged by `log.Fatal` or `log.Fatalf` and the process left
with status 1; `fault msg` a Go run-time fault (nil dereference, index out of
range) aborted the process. -/
inductive Res (α : Type) where
  | ret (a : α)
  | fatal (msg : String)
  | fault (msg : String)
  deriving DecidableEq, Repr

/-- A run: the events performed, in order, and how it ended. -/
structure Run (α : Type) where
  trace : List Event
  res : Res α
  deriving DecidableEq, Repr

/-- The events that are requests to the GitHub API. -/
def Event.isApi : Event → Bool
  | .apiRepo _ _ => true
  | .apiLatest _ _ => true
  | .apiTags _ _ => true
  | .apiByTag _ _ _ => true
  | _ => false

/-- The events that are requests for tags or by tag. -/
def Event.isTagRequest : Event → Bool
  | .apiTags _ _ => true
  | .apiByTag _ _ _ => true
  | _ => false

/-- The events that are requests for a release or for tags. -/
def Event.isReleaseOrTagRequest : Event → Bool
  | .apiLatest _ _ => true
  | .apiTags _ _ => true
  | .apiByTag _ _ _ => true
  | _ => false

/-- The events of `downloadReleaseAsset`: its entry and its effects on the
file system and the network. -/
def Event.isDownload : Event → Bool
  | .download _ _ _ => true
  | .create _ => true
  | .httpGet _ => true
  | .copy _ _ => true
  | .chmod _ _ => true
  | _ => false

/-- The entries into `downloadReleaseAsset`. -/
def Event.isCall : Event → Bool
  | .download _ _ _ => true
  | _ => false

/-- The effects of `downloadReleaseAsset` on the file system and the
network. -/
def Event.isEffect : Event → Bool
  | .create _ => true
  | .httpGet _ => true
  | .copy _ _ => true
  | .chmod _ _ => true
  | _ => false

/-- Sequencing: the second part runs only when the first returned. -/
def Run.bind {α β : Type} (m : Run α) (f : α → Run β) : Run β :=
  match m.res with
  | .ret a => ⟨m.trace ++ (f a).trace, (f a).res⟩
  | .fatal msg => ⟨m.trace, .fatal msg⟩
  | .fault msg => ⟨m.trace, .fault msg⟩

instance : Monad Run where
  pure a := ⟨[], .ret a⟩
  bind := Run.bind

/-- Perform one event. -/
def emit (e : Event) : Run Unit := ⟨[e], .ret ()⟩

/-- The call `log.Fatal(msg)`. -/
def fatal {α : Type} (msg : String) : Run α := ⟨[], .fatal msg⟩

/-- A Go run-time fault. -/
def fault {α : Type} (msg : String) : Run α := ⟨[], .fault msg⟩

/-- Go slice indexing `xs[i]`, which faults outside `0 .. len(xs)-1`. -/
def index {α : Type} (xs : List α) (i : Int) : Run α :=
  if 0 ≤ i ∧ i < xs.length then
    match xs.get? i.toNat with
    | some a => pure a
    | none => fault "index out of range"
  else fault "index out of range"

/-! ## The program -/

/-- The constant `USAGE` (lines 26-36). -/
def USAGE : String :=
  "\ngrab [flags] repo\n\nFlags:\n\t-r [newname] Rename the local download to [newname]\n\t-p [newpath] Install the local download to [newpath]\n\t-d           Perform a dry-run - do not download or install\n\nExample:\n\t$ grab -p \"~/bin/\" -r \"barg\" tobyjoe/grab\n"

/-- The format `ERR_NO_RELEASES` (line 38) applied to the text of its one
`%v` operand. -/
def ERR_NO_RELEASES (v : String) : String :=
  "Error: No tags or releases: " ++ v

/-- Lines 54-72 of `main`: owner and repository from the arguments. -/
def parseArgs (args : List String) : Run (String × String) :=
  match args with
  | [] => fatal USAGE
  | arg0 :: _ =>
    let project := TrimSpace arg0
    if project = "" then fatal USAGE
    else
      match Split project with
      | [part0, part1] =>
        let owner := TrimSpace part0
        let repo := TrimSpace part1
        if owner = "" ∨ repo = "" then fatal USAGE else pure (owner, repo)
      | _ => fatal USAGE

/-- The text `projectUrl` of line 74. -/
def projectUrl (owner repo : String) : String :=
  "github.com/" ++ owner ++ "/" ++ repo

/-- Lines 80-91 of `main`: the repository lookup. -/
def checkRepo (w : World) (owner repo : String) : Run Unit := do
  emit (.apiRepo owner repo)
  match w.reposGet owner repo with
  | .ok _ => pure ()
  | .fail none _ => fatal ("Error: Cannot reach " ++ projectUrl owner repo)
  | .fail (some code) _ =>
    if code = 404 then
      fatal ("Error: Project does not exist: " ++ projectUrl owner repo)
    else
      fatal ("Error: Unknown error (" ++ toString code ++ ") reaching: "
        ++ projectUrl owner repo)

/-- Lines 93-110 of `main`: the value of the pointer `release` when line 112
is reached (`none` is nil).  A failed request leaves `release` nil; with no
response, `resp.StatusCode` at line 95 dereferences the nil `resp`. -/
def resolveRelease (w : World) (owner repo : String) :
    Run (Option RepositoryRelease) := do
  emit (.apiLatest owner repo)
  match w.getLatestRelease owner repo with
  | .ok release => pure (some release)
  | .fail none _ => fault "nil pointer dereference"
  | .fail (some code) _ =>
    if code = 404 then do
      emit (.log "No official releases yet. Checking pre-release tags...")
      emit (.apiTags owner repo)
      match w.listTags owner repo with
      | .fail _ err => fatal (ERR_NO_RELEASES err)
      | .ok [] => fatal (ERR_NO_RELEASES "<nil>")
      | .ok (tag :: _) => do
        emit (.log ("Latest tag: " ++ tag.Name ++ " (" ++ tag.CommitSHA ++ ")"))
        emit (.apiByTag owner repo tag.Name)
        match w.getReleaseByTag owner repo tag.Name with
        | .ok release => pure (some release)
        | .fail _ err => fatal (ERR_NO_RELEASES err)
    else pure none

/-- The line logged for the asset at position `i` of the list (line 125). -/
def assetLine (i : Nat) (a : ReleaseAsset) : String :=
  " (" ++ toString (i + 1) ++ ") " ++ a.Name ++ " (" ++ a.BrowserDownloadURL ++ ")"

/-- The loop of lines 124-126 over the assets from position `i` on. -/
def listAssets : Nat → List ReleaseAsset → List Event
  | _, [] => []
  | i, a :: rest => Event.log (assetLine i a) :: listAssets (i + 1) rest

/-- Lines 112-140 of `main`: the selected asset. -/
def selectAsset (w : World) (release : Option RepositoryRelease) :
    Run ReleaseAsset :=
  match release with
  | none => fault "nil pointer dereference"
  | some rel =>
    let assets := rel.Assets
    match assets with
    | [] => fatal "Error: No assets to download"
    | [a] => pure a
    | _ => do
      emit (.log "Release Assets:")
      (⟨listAssets 0 assets, .ret ()⟩ : Run Unit)
      emit (.out "Which asset would you like to download? ")
      emit .readInput
      let choice := TrimSpace (ReadString w.stdin)
      match Atoi choice with
      | none => fatal "Error: You must select an asset to download"
      | some choiceInt => do
        emit (.out "\n")
        index assets (wrapInt (choiceInt - 1))

/-- The function `binDir` (lines 209-234). -/
def binDir (w : World) : Run String :=
  match w.getwd with
  | .error _ => fatal "Error: No working directory"
  | .ok dir => do
    emit (.log ("GOOS: " ++ w.goos))
    if w.goos = "darwin" ∨ w.goos = "dragonfly" ∨ w.goos = "linux" ∨
        w.goos = "freebsd" ∨ w.goos = "netbsd" ∨ w.goos = "openbsd" then
      pure "/usr/local/bin"
    else pure dir

/-- Lines 167-172 of `downloadReleaseAsset`: the value of `fileName` for the
pointer `newName` (`none` when nil) and the `Path` of the parsed URL. -/
def localFileName (newName : Option String) (urlPath : String) : String :=
  match newName with
  | none => (pathSplit urlPath).2
  | some n => n

/-- Lines 157-206 of `downloadReleaseAsset`, from the point where `outDir`
is set; `newName` is `none` when the pointer is nil. -/
def transferAsset (w : World) (r : ReleaseAsset) (newName : Option String)
    (outDir : String) : Run Unit := do
  let downloadUrlString := r.BrowserDownloadURL
  emit (.log ("Downloading release asset: " ++ downloadUrlString))
  emit (.log ("Copying to: " ++ outDir))
  match w.urlParse downloadUrlString with
  | .error err => fatal ("Error: Could not parse URL: " ++ err)
  | .ok urlPath =>
    let fileName := localFileName newName urlPath
    let outName := outDir ++ "/" ++ fileName
    emit (.create outName)
    match w.create outName with
    | some err => fatal ("Error: Could not create local file: " ++ err)
    | none => do
      emit (.httpGet downloadUrlString)
      match w.httpGet downloadUrlString with
      | some err => fatal ("Error: Could not get remote file: " ++ err)
      | none => do
        emit (.copy downloadUrlString outName)
        match w.copy downloadUrlString outName with
        | some err => fatal ("Error: Could not copy local file: " ++ err)
        | none => do
          emit (.chmod outName 0o755)
          match w.chmod outName 0o755 with
          | some _ =>
            fatal ("Error: Could not make " ++ outName ++
              " executable. Try with (sudo)?")
          | none => pure ()

/-- The function `downloadReleaseAsset` (lines 149-207); the pointers
`newName` and `newPath` are `none` when nil.  Lines 150-155 set `outDir`, the
rest is `transferAsset`. -/
def downloadReleaseAsset (w : World) (r : ReleaseAsset)
    (newName newPath : Option String) : Run Unit := do
  emit (.download r newName newPath)
  let outDir ← (match newPath with
    | none => binDir w
    | some p => pure p)
  transferAsset w r newName outDir

/-- Lines 142-146 of `main`; `renameFlag` and `pathFlag` are the addresses of
the flag variables, which are never nil. -/
def finish (w : World) (f : Flags) (asset : ReleaseAsset) : Run Unit :=
  if f.dryRun then emit (.log "Dry-run completed")
  else downloadReleaseAsset w asset (some f.rename) (some f.path)

/-- The line logged at line 51. -/
def flagsLine (f : Flags) : String :=
  "Flags: rename(" ++ f.rename ++ "), path(" ++ f.path ++ "), dry("
    ++ toString f.dryRun ++ ")"

/-- The line logged at line 52. -/
def argsLine (args : List String) : String :=
  "Args : " ++ Join args ", "

/-- The line logged at line 78; `project` is the trimmed first argument. -/
def grabbingLine (args : List String) : String :=
  "Grabbing from " ++ TrimSpace (args.headD "") ++ "..."

/-- The function `main` (lines 40-147). -/
def main (w : World) (cl : CommandLine) : Run Unit := do
  let f := flagParse cl
  emit (.log (flagsLine f))
  emit (.log (argsLine cl.args))
  let (owner, repo) ← parseArgs cl.args
  emit (.log (grabbingLine cl.args))
  checkRepo w owner repo
  let release ← resolveRelease w owner repo
  let asset ← selectAsset w release
  finish w f asset

/-! ## Sample inputs -/

/-- First asset of the sample release. -/
def sampleAsset : ReleaseAsset :=
  ⟨"grab", "https://github.com/tobyjoe/grab/releases/download/v1/grab"⟩

/-- Second asset of the sample release. -/
def sampleAsset2 : ReleaseAsset :=
  ⟨"grab.exe", "https://github.com/tobyjoe/grab/releases/download/v1/grab.exe"⟩

/-- A Linux machine on which every request and every file and network step
succeeds: the latest release has the single asset `sampleAsset`, the first
tag is `v1`, and the path of a URL is the text after `https://github.com`. -/
def sampleWorld : World where
  goos := "linux"
  getwd := .ok "/home/user"
  reposGet := fun _ _ => .ok ()
  getLatestRelease := fun _ _ => .ok ⟨[sampleAsset]⟩
  listTags := fun _ _ => .ok [⟨"v1", "0a1b2c"⟩, ⟨"v0", "3d4e5f"⟩]
  getReleaseByTag := fun _ _ tag =>
    if tag = "v1" then .ok ⟨[sampleAsset2]⟩ else .fail (some 404) "404 Not Found"
  stdin := "2\n"
  urlParse := fun s => .ok ⟨s.data.drop 18⟩
  create := fun _ => none
  httpGet := fun _ => none
  copy := fun _ _ => none
  chmod := fun _ _ => none

/-- The sample world with another answer to the repository lookup. -/
def worldWithRepo (a : ApiResult Unit) : World :=
  { sampleWorld with reposGet := fun _ _ => a }

/-- The sample world with another answer to the latest-release request. -/
def worldWithLatest (a : ApiResult RepositoryRelease) : World :=
  { sampleWorld with getLatestRelease := fun _ _ => a }

/-- The sample world with another content of standard input. -/
def worldWithStdin (input : String) : World :=
  { sampleWorld with stdin := input }

/-- The sample world in which no file can be created. -/
def worldNoCreate : World :=
  { sampleWorld with create := fun _ => some "permission denied" }

/-- The command line `grab -d tobyjoe/grab`. -/
def dryCommand : CommandLine := ⟨none, none, true, ["tobyjoe/grab"]⟩

/-- The command line `grab -p /tmp -r barg tobyjoe/grab`. -/
def fullCommand : CommandLine := ⟨some "barg", some "/tmp", false, ["tobyjoe/grab"]⟩

/-- The command line `grab -p /tmp tobyjoe/grab`, without `-r`. -/
def noRenameCommand : CommandLine := ⟨none, some "/tmp", false, ["tobyjoe/grab"]⟩

/-- The command line `grab -r barg tobyjoe/grab`, without `-p`. -/
def noPathCommand : CommandLine := ⟨some "barg", none, false, ["tobyjoe/grab"]⟩

/-! ## Sequencing lemmas -/

@[simp] theorem bind_trace {α β : Type} (m : Run α) (f : α → Run β) :
    (m >>= f).trace = m.trace ++
      (match m.res with
        | .ret a => (f a).trace
        | _ => []) := by
  show (Run.bind m f).trace = _
  unfold Run.bind
  cases h : m.res <;> simp

@[simp] theorem bind_res {α β : Type} (m : Run α) (f : α → Run β) :
    (m >>= f).res =
      (match m.res with
        | .ret a => (f a).res
        | .fatal msg => .fatal msg
        | .fault msg => .fault msg) := by
  show (Run.bind m f).res = _
  unfold Run.bind
  cases h : m.res <;> simp

@[simp] theorem pure_trace {α : Type} (a : α) : (pure a : Run α).trace = [] := rfl

@[simp] theorem pure_res {α : Type} (a : α) : (pure a : Run α).res = .ret a := rfl

@[simp] theorem emit_trace (e : Event) : (emit e).trace = [e] := rfl

@[simp] theorem emit_res (e : Event) : (emit e).res = .ret () := rfl

@[simp] theorem fatal_trace {α : Type} (msg : String) :
    (fatal msg : Run α).trace = [] := rfl

@[simp] theorem fatal_res {α : Type} (msg : String) :
    (fatal msg : Run α).res = .fatal msg := rfl

@[simp] theorem fault_trace {α : Type} (msg : String) :
    (fault msg : Run α).trace = [] := rfl

@[simp] theorem fault_res {α : Type} (msg : String) :
    (fault msg : Run α).res = .fault msg := rfl

/-! ## Argument parsing -/

theorem parseArgs_trace (args : List String) : (parseArgs args).trace = [] := by
  unfold parseArgs
  split
  · rfl
  · dsimp only
    split
    · rfl
    · split
      · split <;> rfl
      · rfl

theorem parseArgs_eq (args : List String) :
    parseArgs args = ⟨[], (parseArgs args).res⟩ := by
  have h := parseArgs_trace args
  cases hp : parseArgs args with
  | mk t r => rw [hp] at h; simp at h; simp [h]

theorem parseArgs_res_cases (args : List String) :
    (∃ p, (parseArgs args).res = .ret p) ∨ (parseArgs args).res = .fatal USAGE := by
  unfold parseArgs
  split
  · right; rfl
  · dsimp only
    split
    · right; rfl
    · split
      · split
        · right; rfl
        · left; exact ⟨_, rfl⟩
      · right; rfl

theorem Split_empty : Split "" = [""] := by decide

theorem parseArgs_ok_iff (s : String) (rest : List String) (owner repo : String) :
    (parseArgs (s :: rest)).res = .ret (owner, repo) ↔
      ∃ a b, Split (TrimSpace s) = [a, b] ∧ TrimSpace a ≠ "" ∧ TrimSpace b ≠ "" ∧
        owner = TrimSpace a ∧ repo = TrimSpace b := by
  unfold parseArgs
  dsimp only
  by_cases hproj : TrimSpace s = ""
  · rw [if_pos hproj, hproj, Split_empty]
    simp
  · rw [if_neg hproj]
    split
    · rename_i part0 part1 hsplit
      by_cases hor : TrimSpace part0 = "" ∨ TrimSpace part1 = ""
      · rw [if_pos hor]
        constructor
        · intro h
          simp at h
        · rintro ⟨a, b, hab, ha, hb, -, -⟩
          rw [hsplit] at hab
          simp only [List.cons.injEq, and_true] at hab
          obtain ⟨rfl, rfl⟩ := hab
          rcases hor with h | h
          · exact absurd h ha
          · exact absurd h hb
      · rw [if_neg hor]
        simp only [pure_res, Res.ret.injEq, Prod.mk.injEq]
        push_neg at hor
        constructor
        · rintro ⟨rfl, rfl⟩
          exact ⟨part0, part1, hsplit, hor.1, hor.2, rfl, rfl⟩
        · rintro ⟨a, b, hab, -, -, rfl, rfl⟩
          rw [hsplit] at hab
          simp only [List.cons.injEq, and_true] at hab
          obtain ⟨rfl, rfl⟩ := hab
          exact ⟨rfl, rfl⟩
    · rename_i hne
      constructor
      · intro h
        simp at h
      · rintro ⟨a, b, hab, -⟩
        exact absurd hab (hne a b)

/-! ## Events of each step -/

theorem checkRepo_trace (w : World) (o r : String) :
    (checkRepo w o r).trace = [.apiRepo o r] := by
  unfold checkRepo
  simp
  split
  · rfl
  · rfl
  · split <;> rfl

theorem checkRepo_res (w : World) (o r : String) :
    (checkRepo w o r).res =
      match w.reposGet o r with
      | .ok _ => .ret ()
      | .fail none _ => .fatal ("Error: Cannot reach " ++ projectUrl o r)
      | .fail (some code) _ =>
        if code = 404 then .fatal ("Error: Project does not exist: " ++ projectUrl o r)
        else .fatal ("Error: Unknown error (" ++ toString code ++ ") reaching: " ++ projectUrl o r) := by
  unfold checkRepo
  simp
  split
  · rfl
  · rfl
  · split <;> rfl

theorem listAssets_log (l : List ReleaseAsset) :
    ∀ (i : Nat) (e : Event), e ∈ listAssets i l → e.isApi = false ∧ e.isDownload = false := by
  induction l with
  | nil => intro i e he; simp [listAssets] at he
  | cons a rest ih =>
    intro i e he
    simp only [listAssets, List.mem_cons] at he
    rcases he with rfl | he
    · exact ⟨rfl, rfl⟩
    · exact ih _ e he

theorem index_trace {α : Type} (xs : List α) (i : Int) : (index xs i).trace = [] := by
  unfold index
  split
  · split <;> rfl
  · rfl

theorem selectAsset_events (w : World) (rel : Option RepositoryRelease) :
    ∀ e ∈ (selectAsset w rel).trace, e.isApi = false ∧ e.isDownload = false := by
  intro e he
  unfold selectAsset at he
  split at he
  · simp at he
  · dsimp only at he
    split at he
    · simp at he
    · simp at he
    · simp only [bind_trace, emit_trace, emit_res] at he
      simp only [List.mem_append, List.mem_cons, List.mem_singleton, List.not_mem_nil, or_false] at he
      rcases he with rfl | he | rfl | rfl | he
      · exact ⟨rfl, rfl⟩
      · exact listAssets_log _ _ _ he
      · exact ⟨rfl, rfl⟩
      · exact ⟨rfl, rfl⟩
      · split at he
        · simp at he
        · simp [index_trace] at he
          subst he
          exact ⟨rfl, rfl⟩

theorem resolveRelease_events (w : World) (o r : String) :
    ∀ e ∈ (resolveRelease w o r).trace, e.isDownload = false ∧ (∀ a b, e ≠ .apiRepo a b) := by
  intro e he
  unfold resolveRelease at he
  simp only [bind_trace, emit_trace, emit_res] at he
  repeat' split at he
  all_goals simp at he
  all_goals rcases he with rfl | rfl | rfl | rfl | rfl <;> simp [Event.isDownload]

theorem binDir_events (w : World) :
    ∀ e ∈ (binDir w).trace, e.isDownload = false ∧ e.isApi = false := by
  intro e he
  unfold binDir at he
  repeat' split at he
  all_goals simp at he
  all_goals subst he
  all_goals exact ⟨rfl, rfl⟩

theorem binDir_filter (w : World) : (binDir w).trace.filter Event.isEffect = [] := by
  unfold binDir
  repeat' split
  all_goals simp [Event.isEffect]

/-! ## The whole program -/

theorem main_of_parse_fault (w : World) (cl : CommandLine)
    (hp : (parseArgs cl.args).res = .fatal USAGE) :
    main w cl = ⟨[.log (flagsLine (flagParse cl)), .log (argsLine cl.args)], .fatal USAGE⟩ := by
  unfold main
  rw [parseArgs_eq cl.args, hp]
  rfl

theorem main_of_parse (w : World) (cl : CommandLine) (owner repo : String)
    (hp : (parseArgs cl.args).res = .ret (owner, repo)) :
    main w cl =
      (emit (.log (flagsLine (flagParse cl))) >>= fun _ =>
       emit (.log (argsLine cl.args)) >>= fun _ =>
       emit (.log (grabbingLine cl.args)) >>= fun _ =>
       checkRepo w owner repo >>= fun _ =>
       resolveRelease w owner repo >>= fun release =>
       selectAsset w release >>= fun asset =>
       finish w (flagParse cl) asset) := by
  unfold main
  rw [parseArgs_eq cl.args, hp]
  rfl

theorem transferAsset_events (w : World) (a : ReleaseAsset) (nn : Option String)
    (d : String) :
    ∀ e ∈ (transferAsset w a nn d).trace, e.isApi = false ∧ e.isCall = false := by
  intro e he
  unfold transferAsset at he
  simp only [bind_trace, emit_trace, emit_res, bind_res, pure_trace, pure_res] at he
  repeat' split at he
  all_goals simp at he
  all_goals rcases he with rfl | rfl | rfl | rfl | rfl | rfl | rfl
  all_goals exact ⟨rfl, rfl⟩

theorem downloadReleaseAsset_events (w : World) (a : ReleaseAsset) (nn np : Option String) :
    ∀ e ∈ (downloadReleaseAsset w a nn np).trace, e.isApi = false := by
  intro e he
  unfold downloadReleaseAsset at he
  simp only [bind_trace, emit_trace, emit_res, bind_res] at he
  simp only [List.mem_append, List.mem_cons, List.mem_singleton, List.not_mem_nil,
    or_false] at he
  rcases he with rfl | he | he
  · rfl
  · cases np with
    | none => exact (binDir_events w e he).2
    | some p => simp at he
  · split at he
    · exact (transferAsset_events w a nn _ e he).1
    · simp at he

theorem finish_events (w : World) (f : Flags) (a : ReleaseAsset) :
    ∀ e ∈ (finish w f a).trace, e.isApi = false := by
  intro e he
  unfold finish at he
  split at he
  · simp at he
    subst he
    rfl
  · exact downloadReleaseAsset_events _ _ _ _ e he

theorem apiRepo_mem_iff (w : World) (cl : CommandLine) (a b : String) :
    Event.apiRepo a b ∈ (main w cl).trace ↔ (parseArgs cl.args).res = .ret (a, b) := by
  rcases parseArgs_res_cases cl.args with ⟨⟨o, r⟩, hp⟩ | hp
  · rw [main_of_parse w cl o r hp, hp]
    simp only [bind_trace, emit_trace, emit_res, bind_res, checkRepo_trace]
    simp only [List.mem_append, List.mem_cons, List.mem_singleton, List.not_mem_nil, or_false,
      List.singleton_append, List.nil_append, Event.apiRepo.injEq, Res.ret.injEq, Prod.mk.injEq,
      reduceCtorEq, false_or]
    constructor
    · rintro (⟨rfl, rfl⟩ | h)
      · exact ⟨rfl, rfl⟩
      · exfalso
        split at h
        · simp only [List.mem_append] at h
          rcases h with h | h
          · exact (resolveRelease_events w o r _ h).2 a b rfl
          · split at h
            · simp only [List.mem_append] at h
              rcases h with h | h
              · have := (selectAsset_events w _ _ h).1
                simp [Event.isApi] at this
              · split at h
                · have := finish_events w _ _ _ h
                  simp [Event.isApi] at this
                · simp at h
            · simp at h
        · simp at h
    · rintro ⟨rfl, rfl⟩
      exact Or.inl ⟨rfl, rfl⟩
  · rw [main_of_parse_fault w cl hp, hp]
    simp

/-- C1: `main` reaches the repository lookup for `owner` and `repo` exactly when the first
argument, trimmed and split on "/", has exactly two segments, both non-empty after trimming,
and `owner`, `repo` are those trimmed segments; otherwise it leaves with the usage text
and no API request is made. -/
theorem C1_arguments (w : World) (cl : CommandLine) :
    (∀ owner repo, Event.apiRepo owner repo ∈ (main w cl).trace ↔
        ∃ s rest a b, cl.args = s :: rest ∧ Split (TrimSpace s) = [a, b] ∧
          TrimSpace a ≠ "" ∧ TrimSpace b ≠ "" ∧
          owner = TrimSpace a ∧ repo = TrimSpace b) ∧
    ((¬ ∃ s rest a b, cl.args = s :: rest ∧ Split (TrimSpace s) = [a, b] ∧
          TrimSpace a ≠ "" ∧ TrimSpace b ≠ "") →
        (main w cl).res = .fatal USAGE ∧ ∀ e ∈ (main w cl).trace, e.isApi = false) := by
  constructor
  · intro owner repo
    rw [apiRepo_mem_iff]
    cases hargs : cl.args with
    | nil =>
      constructor
      · intro h
        simp [parseArgs] at h
      · rintro ⟨s, rest, a, b, h, -⟩
        simp at h
    | cons s rest =>
      rw [parseArgs_ok_iff]
      constructor
      · rintro ⟨a, b, h⟩
        exact ⟨s, rest, a, b, rfl, h⟩
      · rintro ⟨s', rest', a, b, h, h2⟩
        simp only [List.cons.injEq] at h
        obtain ⟨rfl, rfl⟩ := h
        exact ⟨a, b, h2⟩
  · intro hno
    have hp : (parseArgs cl.args).res = .fatal USAGE := by
      rcases parseArgs_res_cases cl.args with ⟨⟨o, r⟩, hp⟩ | hp
      · exfalso
        apply hno
        cases hargs : cl.args with
        | nil => rw [hargs] at hp; simp [parseArgs] at hp
        | cons s rest =>
          rw [hargs, parseArgs_ok_iff] at hp
          obtain ⟨a, b, h1, h2, h3, -, -⟩ := hp
          exact ⟨s, rest, a, b, rfl, h1, h2, h3⟩
      · exact hp
    rw [main_of_parse_fault w cl hp]
    refine ⟨rfl, ?_⟩
    intro e he
    simp at he
    rcases he with rfl | rfl <;> rfl

theorem isTagRequest_of_isApi (e : Event) (h : e.isApi = false) : e.isTagRequest = false := by
  cases e <;> simp_all [Event.isApi, Event.isTagRequest]

theorem select_finish_events (w : World) (f : Flags) (rel : Option RepositoryRelease) :
    ∀ e ∈ (selectAsset w rel >>= finish w f).trace, e.isApi = false := by
  intro e he
  simp only [bind_trace, List.mem_append] at he
  rcases he with he | he
  · exact (selectAsset_events w rel e he).1
  · split at he
    · exact finish_events w f _ e he
    · simp at he

theorem main_of_lookup (w : World) (cl : CommandLine) (owner repo : String)
    (hp : (parseArgs cl.args).res = .ret (owner, repo))
    (hr : w.reposGet owner repo = .ok ()) :
    main w cl =
      (emit (.log (flagsLine (flagParse cl))) >>= fun _ =>
       emit (.log (argsLine cl.args)) >>= fun _ =>
       emit (.log (grabbingLine cl.args)) >>= fun _ =>
       emit (.apiRepo owner repo) >>= fun _ =>
       resolveRelease w owner repo >>= fun release =>
       selectAsset w release >>= finish w (flagParse cl)) := by
  rw [main_of_parse w cl owner repo hp]
  unfold checkRepo
  simp only [hr]
  rfl

theorem projectUrl_text (pre owner repo : String) :
    pre ++ projectUrl owner repo = pre ++ "github.com/" ++ owner ++ "/" ++ repo := by
  unfold projectUrl
  simp only [String.append_assoc]

/-- C10: once the arguments are parsed, a successful repository lookup is followed by the
latest-release request; a lookup that fails with no response ends the run with
"Error: Cannot reach github.com/<owner>/<repo>", one that fails with status 404 with
"Error: Project does not exist: github.com/<owner>/<repo>", one that fails with any other
status `c` with "Error: Unknown error (c) reaching: github.com/<owner>/<repo>"; in none of
the failing cases is a release or tag request made. -/
theorem C10_lookup (w : World) (cl : CommandLine) (owner repo : String)
    (hp : (parseArgs cl.args).res = .ret (owner, repo)) :
    (w.reposGet owner repo = .ok () →
        Event.apiLatest owner repo ∈ (main w cl).trace) ∧
    (∀ err, w.reposGet owner repo = .fail none err →
        (main w cl).res =
          .fatal ("Error: Cannot reach github.com/" ++ owner ++ "/" ++ repo) ∧
        ∀ e ∈ (main w cl).trace, e.isReleaseOrTagRequest = false) ∧
    (∀ err, w.reposGet owner repo = .fail (some 404) err →
        (main w cl).res =
          .fatal ("Error: Project does not exist: github.com/" ++ owner ++ "/" ++ repo) ∧
        ∀ e ∈ (main w cl).trace, e.isReleaseOrTagRequest = false) ∧
    (∀ c err, c ≠ 404 → w.reposGet owner repo = .fail (some c) err →
        (main w cl).res =
          .fatal ("Error: Unknown error (" ++ toString c ++ ") reaching: github.com/"
            ++ owner ++ "/" ++ repo) ∧
        ∀ e ∈ (main w cl).trace, e.isReleaseOrTagRequest = false) := by
  have t1 : "Error: Cannot reach " ++ projectUrl owner repo =
      "Error: Cannot reach github.com/" ++ owner ++ "/" ++ repo := by
    rw [projectUrl_text]
    rfl
  have t2 : "Error: Project does not exist: " ++ projectUrl owner repo =
      "Error: Project does not exist: github.com/" ++ owner ++ "/" ++ repo := by
    rw [projectUrl_text]
    rfl
  have t3 : ∀ c : Nat,
      "Error: Unknown error (" ++ toString c ++ ") reaching: " ++ projectUrl owner repo =
      "Error: Unknown error (" ++ toString c ++ ") reaching: github.com/"
        ++ owner ++ "/" ++ repo := by
    intro c
    rw [projectUrl_text]
    simp only [String.append_assoc]
    rfl
  refine ⟨?_, ?_, ?_, ?_⟩
  · intro hr
    rw [main_of_lookup w cl owner repo hp hr]
    unfold resolveRelease
    simp
  · intro err hr
    rw [main_of_parse w cl owner repo hp, ← t1]
    simp [checkRepo_trace, checkRepo_res, hr, Event.isReleaseOrTagRequest]
  · intro err hr
    rw [main_of_parse w cl owner repo hp, ← t2]
    simp [checkRepo_trace, checkRepo_res, hr, Event.isReleaseOrTagRequest]
  · intro c err hc hr
    rw [main_of_parse w cl owner repo hp, ← t3 c]
    simp [checkRepo_trace, checkRepo_res, hr, hc, Event.isReleaseOrTagRequest]

/-- C2: after a successful lookup, when the latest-release request succeeds the release
handed to asset selection is that release and no tag request is made; when it fails with
status 404, the tag list is non-empty and the release-by-tag request for the name of the
first tag succeeds, the release handed to asset selection is the one returned for that
tag, and no release-by-tag request is made for any other name. -/
theorem C2_resolution (w : World) (cl : CommandLine) (owner repo : String)
    (hp : (parseArgs cl.args).res = .ret (owner, repo))
    (hr : w.reposGet owner repo = .ok ()) :
    (∀ rel, w.getLatestRelease owner repo = .ok rel →
        (resolveRelease w owner repo).res = .ret (some rel) ∧
        (main w cl).res = (selectAsset w (some rel) >>= finish w (flagParse cl)).res ∧
        (main w cl).trace =
          [.log (flagsLine (flagParse cl)), .log (argsLine cl.args),
            .log (grabbingLine cl.args), .apiRepo owner repo, .apiLatest owner repo]
          ++ (selectAsset w (some rel) >>= finish w (flagParse cl)).trace ∧
        ∀ e ∈ (main w cl).trace, e.isTagRequest = false) ∧
    (∀ err tag tags rel, w.getLatestRelease owner repo = .fail (some 404) err →
        w.listTags owner repo = .ok (tag :: tags) →
        w.getReleaseByTag owner repo tag.Name = .ok rel →
        (resolveRelease w owner repo).res = .ret (some rel) ∧
        (main w cl).res = (selectAsset w (some rel) >>= finish w (flagParse cl)).res ∧
        (main w cl).trace =
          [.log (flagsLine (flagParse cl)), .log (argsLine cl.args),
            .log (grabbingLine cl.args), .apiRepo owner repo, .apiLatest owner repo,
            .log "No official releases yet. Checking pre-release tags...",
            .apiTags owner repo,
            .log ("Latest tag: " ++ tag.Name ++ " (" ++ tag.CommitSHA ++ ")"),
            .apiByTag owner repo tag.Name]
          ++ (selectAsset w (some rel) >>= finish w (flagParse cl)).trace ∧
        ∀ o r t, Event.apiByTag o r t ∈ (main w cl).trace → t = tag.Name) := by
  constructor
  · intro rel hl
    have hres : (resolveRelease w owner repo).res = .ret (some rel) := by
      unfold resolveRelease
      simp [hl]
    have htr : (resolveRelease w owner repo).trace = [.apiLatest owner repo] := by
      unfold resolveRelease
      simp [hl]
    have hmain : (main w cl).trace =
          [.log (flagsLine (flagParse cl)), .log (argsLine cl.args),
            .log (grabbingLine cl.args), .apiRepo owner repo, .apiLatest owner repo]
          ++ (selectAsset w (some rel) >>= finish w (flagParse cl)).trace := by
      rw [main_of_lookup w cl owner repo hp hr]
      simp [hres, htr]
    refine ⟨hres, ?_, hmain, ?_⟩
    · rw [main_of_lookup w cl owner repo hp hr]
      simp [hres]
    · intro e he
      rw [hmain] at he
      simp only [List.mem_append, List.mem_cons, List.not_mem_nil, or_false] at he
      rcases he with (rfl | rfl | rfl | rfl | rfl) | he
      any_goals rfl
      exact isTagRequest_of_isApi e (select_finish_events w _ _ e he)
  · intro err tag tags rel hl ht hb
    have hres : (resolveRelease w owner repo).res = .ret (some rel) := by
      unfold resolveRelease
      simp [hl, ht, hb]
    have htr : (resolveRelease w owner repo).trace =
        [.apiLatest owner repo,
          .log "No official releases yet. Checking pre-release tags...",
          .apiTags owner repo,
          .log ("Latest tag: " ++ tag.Name ++ " (" ++ tag.CommitSHA ++ ")"),
          .apiByTag owner repo tag.Name] := by
      unfold resolveRelease
      simp [hl, ht, hb]
    have hmain : (main w cl).trace =
          [.log (flagsLine (flagParse cl)), .log (argsLine cl.args),
            .log (grabbingLine cl.args), .apiRepo owner repo, .apiLatest owner repo,
            .log "No official releases yet. Checking pre-release tags...",
            .apiTags owner repo,
            .log ("Latest tag: " ++ tag.Name ++ " (" ++ tag.CommitSHA ++ ")"),
            .apiByTag owner repo tag.Name]
          ++ (selectAsset w (some rel) >>= finish w (flagParse cl)).trace := by
      rw [main_of_lookup w cl owner repo hp hr]
      simp [hres, htr]
    refine ⟨hres, ?_, hmain, ?_⟩
    · rw [main_of_lookup w cl owner repo hp hr]
      simp [hres]
    · intro o r t he
      rw [hmain] at he
      rw [List.mem_append] at he
      rcases he with he | he
      · simp at he
        exact he.2.2
      · have := select_finish_events w _ _ _ he
        simp [Event.isApi] at this

/-! ## Asset selection -/

theorem listAssets_get (l : List ReleaseAsset) :
    ∀ (i j : Nat) (a : ReleaseAsset), l.get? j = some a →
      (listAssets i l).get? j = some (.log (assetLine (i + j) a)) := by
  induction l with
  | nil => intro i j a h; simp at h
  | cons b rest ih =>
    intro i j a h
    cases j with
    | zero =>
      simp at h
      subst h
      simp [listAssets]
    | succ j =>
      simp at h
      simp only [listAssets, List.get?_cons_succ]
      rw [ih (i + 1) j a (by simpa using h)]
      congr 3
      omega

theorem Atoi_range (s : String) (k : Int) (h : Atoi s = some k) :
    -(2 ^ (intSize - 1) : Int) ≤ k ∧ k < 2 ^ (intSize - 1) := by
  unfold Atoi at h
  split at h
  · simp at h
  · split at h
    · split at h
      · split at h
        · simp at h
          subst h
          rename_i n _ hn
          have h2 : (0 : Int) ≤ n := Int.ofNat_nonneg n
          have h3 : (n : Int) ≤ (2 ^ (intSize - 1) : Nat) := by exact_mod_cast hn
          simp only [intSize] at h3 ⊢
          norm_num at h3 ⊢
          omega
        · simp at h
      · simp at h
    · split at h
      · split at h
        · simp at h
          subst h
          rename_i n _ hn
          have h2 : (0 : Int) ≤ n := Int.ofNat_nonneg n
          have h3 : (n : Int) < (2 ^ (intSize - 1) : Nat) := by exact_mod_cast hn
          simp only [intSize] at h3 ⊢
          norm_num at h3 ⊢
          omega
        · simp at h
      · simp at h

theorem wrapInt_of_range (x : Int) (h1 : -(2 ^ (intSize - 1) : Int) ≤ x)
    (h2 : x < 2 ^ (intSize - 1)) : wrapInt x = x := by
  unfold wrapInt
  simp only [intSize] at *
  norm_num at *
  omega

theorem main_of_release (w : World) (cl : CommandLine) (owner repo : String)
    (release : Option RepositoryRelease)
    (hp : (parseArgs cl.args).res = .ret (owner, repo))
    (hr : w.reposGet owner repo = .ok ())
    (hrel : (resolveRelease w owner repo).res = .ret release) :
    (main w cl).res = (selectAsset w release >>= finish w (flagParse cl)).res ∧
    (main w cl).trace =
      [.log (flagsLine (flagParse cl)), .log (argsLine cl.args),
        .log (grabbingLine cl.args), .apiRepo owner repo]
      ++ (resolveRelease w owner repo).trace
      ++ (selectAsset w release >>= finish w (flagParse cl)).trace := by
  rw [main_of_lookup w cl owner repo hp hr]
  simp [hrel]

/-- C3: with no asset the selection ends with "Error: No assets to download" and nothing is
read from standard input; with one asset that asset is selected and nothing is read; with
two or more assets the user is prompted and one line is read, and when the trimmed line
parses as an integer `k` with `1 ≤ k ≤ n` the selected asset is the element at index
`k - 1`, the one listed with number `k`. -/
theorem C3_selection (w : World) (rel : RepositoryRelease) :
    (rel.Assets = [] →
        selectAsset w (some rel) = ⟨[], .fatal "Error: No assets to download"⟩ ∧
        ∀ cl owner repo, (parseArgs cl.args).res = .ret (owner, repo) →
          w.reposGet owner repo = .ok () →
          (resolveRelease w owner repo).res = .ret (some rel) →
          (main w cl).res = .fatal "Error: No assets to download" ∧
          Event.readInput ∉ (main w cl).trace) ∧
    (∀ a, rel.Assets = [a] → selectAsset w (some rel) = ⟨[], .ret a⟩) ∧
    (2 ≤ rel.Assets.length →
        Event.out "Which asset would you like to download? " ∈
          (selectAsset w (some rel)).trace ∧
        Event.readInput ∈ (selectAsset w (some rel)).trace ∧
        ∀ k : Int, Atoi (TrimSpace (ReadString w.stdin)) = some k →
          1 ≤ k → k ≤ rel.Assets.length →
          ∃ a, rel.Assets.get? (k - 1).toNat = some a ∧
            (selectAsset w (some rel)).res = .ret a ∧
            (selectAsset w (some rel)).trace =
              .log "Release Assets:" :: listAssets 0 rel.Assets ++
                [.out "Which asset would you like to download? ", .readInput, .out "\n"] ∧
            (listAssets 0 rel.Assets).get? (k - 1).toNat =
              some (.log (" (" ++ toString k.toNat ++ ") " ++ a.Name ++ " ("
                ++ a.BrowserDownloadURL ++ ")"))) := by
  refine ⟨?_, ?_, ?_⟩
  · intro h
    have hsel : selectAsset w (some rel) = ⟨[], .fatal "Error: No assets to download"⟩ := by
      unfold selectAsset
      simp only [h]
      rfl
    refine ⟨hsel, ?_⟩
    intro cl owner repo hp hr hrel
    obtain ⟨h1, h2⟩ := main_of_release w cl owner repo _ hp hr hrel
    rw [h1, h2]
    constructor
    · simp [hsel]
    · simp only [bind_trace, hsel, List.append_nil, List.mem_append, List.mem_cons,
        List.not_mem_nil, or_false, reduceCtorEq, false_or, not_or]
      intro hmem
      unfold resolveRelease at hmem
      simp only [bind_trace, emit_trace, emit_res] at hmem
      repeat' split at hmem
      all_goals simp at hmem
  · intro a h
    unfold selectAsset
    simp only [h]
    rfl
  · intro hlen
    obtain ⟨assets⟩ := rel
    dsimp only at hlen ⊢
    match assets, hlen with
    | a0 :: a1 :: rest, _ =>
      unfold selectAsset
      dsimp only
      refine ⟨by simp, by simp, ?_⟩
      intro k hk h1 hn
      obtain ⟨hlo, hhi⟩ := Atoi_range _ _ hk
      have hw : wrapInt (k - 1) = k - 1 := by
        apply wrapInt_of_range
        · simp only [intSize] at *
          norm_num at *
          omega
        · omega
      have hlt : (k - 1).toNat < (a0 :: a1 :: rest).length := by
        omega
      obtain ⟨a, ha⟩ : ∃ a, (a0 :: a1 :: rest).get? (k - 1).toNat = some a :=
        ⟨_, List.get?_eq_get hlt⟩
      refine ⟨a, ha, ?_, ?_, ?_⟩
      · simp only [bind_res, emit_res, hk, hw]
        unfold index
        rw [if_pos ⟨by omega, by omega⟩, ha]
        rfl
      · simp only [bind_trace, bind_res, emit_res, emit_trace, hk, hw, index_trace]
        simp
      · rw [listAssets_get _ 0 _ a ha]
        unfold assetLine
        have : 0 + (k - 1).toNat + 1 = k.toNat := by omega
        rw [this]

/-! ## Dry run and download -/

theorem isCall_of_isDownload (e : Event) (h : e.isDownload = false) : e.isCall = false := by
  cases e <;> simp_all [Event.isDownload, Event.isCall]

theorem filter_isCall_nil (t : List Event) (h : ∀ e ∈ t, e.isDownload = false) :
    t.filter Event.isCall = [] := by
  rw [List.filter_eq_nil_iff]
  intro e he
  simp [isCall_of_isDownload e (h e he)]

theorem downloadReleaseAsset_calls (w : World) (a : ReleaseAsset) (nn np : Option String) :
    (downloadReleaseAsset w a nn np).trace.filter Event.isCall = [.download a nn np] := by
  unfold downloadReleaseAsset
  simp only [bind_trace, emit_trace, emit_res, bind_res, List.filter_append]
  have h1 : List.filter Event.isCall
      (match np with
        | none => binDir w
        | some p => pure p).trace = [] := by
    cases np with
    | none => exact filter_isCall_nil _ (fun e he => (binDir_events w e he).1)
    | some p => rfl
  have h2 : ∀ d, List.filter Event.isCall (transferAsset w a nn d).trace = [] := by
    intro d
    rw [List.filter_eq_nil_iff]
    intro e he
    simp [(transferAsset_events w a nn d e he).2]
  rw [h1]
  split
  · rw [h2]
    simp [Event.isCall]
  · simp [Event.isCall]

theorem main_dry_events (w : World) (cl : CommandLine) (hd : cl.d = true) :
    ∀ e ∈ (main w cl).trace, e.isDownload = false := by
  intro e he
  rcases parseArgs_res_cases cl.args with ⟨⟨o, r⟩, hp⟩ | hp
  · rw [main_of_parse w cl o r hp] at he
    simp only [bind_trace, emit_trace, emit_res, bind_res, checkRepo_trace] at he
    simp only [List.mem_append, List.mem_cons, List.mem_singleton, List.not_mem_nil,
      or_false, List.singleton_append] at he
    rcases he with rfl | rfl | rfl | rfl | he
    any_goals rfl
    split at he
    · simp only [List.mem_append] at he
      rcases he with he | he
      · exact (resolveRelease_events w o r e he).1
      · split at he
        · simp only [List.mem_append] at he
          rcases he with he | he
          · exact (selectAsset_events w _ e he).2
          · split at he
            · unfold finish at he
              have : (flagParse cl).dryRun = true := hd
              simp [this] at he
              subst he
              rfl
            · simp at he
        · simp at he
    · simp at he
  · rw [main_of_parse_fault w cl hp] at he
    simp at he
    rcases he with rfl | rfl <;> rfl

/-- C4: with the dry-run flag set, no run contains an entry into `downloadReleaseAsset`, a file
creation, an HTTP GET of an asset, a copy or a permission change; with the flag not set,
a run in which an asset was selected enters `downloadReleaseAsset` exactly once, with that
asset. -/
theorem C4_dry_run (w : World) (cl : CommandLine) :
    (cl.d = true → ∀ e ∈ (main w cl).trace, e.isDownload = false) ∧
    (cl.d = false → ∀ owner repo release asset,
        (parseArgs cl.args).res = .ret (owner, repo) →
        w.reposGet owner repo = .ok () →
        (resolveRelease w owner repo).res = .ret release →
        (selectAsset w release).res = .ret asset →
        (main w cl).trace.filter Event.isCall =
          [.download asset (some (flagParse cl).rename) (some (flagParse cl).path)]) := by
  refine ⟨main_dry_events w cl, ?_⟩
  intro hd owner repo release asset hp hr hrel hsel
  rw [(main_of_release w cl owner repo release hp hr hrel).2]
  have hf : (flagParse cl).dryRun = false := hd
  simp only [bind_trace, hsel, List.filter_append]
  rw [filter_isCall_nil _ (fun e he => (resolveRelease_events w owner repo e he).1),
    filter_isCall_nil _ (fun e he => (selectAsset_events w release e he).2)]
  unfold finish
  simp [hf, downloadReleaseAsset_calls, Event.isCall]

theorem transferAsset_cases (w : World) (r : ReleaseAsset) (nn : Option String) (d : String) :
    (∀ err, w.urlParse r.BrowserDownloadURL = .error err →
        (transferAsset w r nn d).res = .fatal ("Error: Could not parse URL: " ++ err) ∧
        (transferAsset w r nn d).trace.filter Event.isEffect = []) ∧
    (∀ up outName, w.urlParse r.BrowserDownloadURL = .ok up →
        outName = d ++ "/" ++ localFileName nn up →
        (∀ err, w.create outName = some err →
          (transferAsset w r nn d).res =
            .fatal ("Error: Could not create local file: " ++ err) ∧
          (transferAsset w r nn d).trace.filter Event.isEffect = [.create outName]) ∧
        (w.create outName = none → ∀ err, w.httpGet r.BrowserDownloadURL = some err →
          (transferAsset w r nn d).res =
            .fatal ("Error: Could not get remote file: " ++ err) ∧
          (transferAsset w r nn d).trace.filter Event.isEffect =
            [.create outName, .httpGet r.BrowserDownloadURL]) ∧
        (w.create outName = none → w.httpGet r.BrowserDownloadURL = none →
          ∀ err, w.copy r.BrowserDownloadURL outName = some err →
          (transferAsset w r nn d).res =
            .fatal ("Error: Could not copy local file: " ++ err) ∧
          (transferAsset w r nn d).trace.filter Event.isEffect =
            [.create outName, .httpGet r.BrowserDownloadURL,
              .copy r.BrowserDownloadURL outName]) ∧
        (w.create outName = none → w.httpGet r.BrowserDownloadURL = none →
          w.copy r.BrowserDownloadURL outName = none →
          ((transferAsset w r nn d).res = .ret () ∨
            (transferAsset w r nn d).res =
              .fatal ("Error: Could not make " ++ outName ++
                " executable. Try with (sudo)?")) ∧
          (transferAsset w r nn d).trace.filter Event.isEffect =
            [.create outName, .httpGet r.BrowserDownloadURL,
              .copy r.BrowserDownloadURL outName, .chmod outName 0o755])) := by
  refine ⟨?_, ?_⟩
  · intro err herr
    unfold transferAsset
    simp [herr, Event.isEffect]
  · intro up outName hup hname
    subst hname
    refine ⟨?_, ?_, ?_, ?_⟩
    · intro err hc
      unfold transferAsset
      simp [hup, hc, Event.isEffect]
    · intro hc err hg
      unfold transferAsset
      simp [hup, hc, hg, Event.isEffect]
    · intro hc hg err hcp
      unfold transferAsset
      simp [hup, hc, hg, hcp, Event.isEffect]
    · intro hc hg hcp
      unfold transferAsset
      simp only [bind_trace, emit_trace, emit_res, bind_res, pure_trace, pure_res, hup, hc,
        hg, hcp]
      split <;> simp [Event.isEffect]

theorem transferAsset_chmod (w : World) (r : ReleaseAsset) (nn : Option String) (d : String) :
    ∀ name mode, Event.chmod name mode ∈ (transferAsset w r nn d).trace →
      mode = 0o755 ∧ w.copy r.BrowserDownloadURL name = none ∧
      (transferAsset w r nn d).trace.filter Event.isEffect =
        [.create name, .httpGet r.BrowserDownloadURL, .copy r.BrowserDownloadURL name,
          .chmod name mode] := by
  intro name mode hmem
  have hf : Event.chmod name mode ∈ (transferAsset w r nn d).trace.filter Event.isEffect :=
    List.mem_filter.mpr ⟨hmem, rfl⟩
  obtain ⟨h1, h2⟩ := transferAsset_cases w r nn d
  cases hup : w.urlParse r.BrowserDownloadURL with
  | error err =>
    rw [(h1 err hup).2] at hf
    simp at hf
  | ok up =>
    obtain ⟨c1, c2, c3, c4⟩ := h2 up _ hup rfl
    cases hc : w.create (d ++ "/" ++ localFileName nn up) with
    | some err => rw [(c1 err hc).2] at hf; simp at hf
    | none =>
      cases hg : w.httpGet r.BrowserDownloadURL with
      | some err => rw [(c2 hc err hg).2] at hf; simp at hf
      | none =>
        cases hcp : w.copy r.BrowserDownloadURL (d ++ "/" ++ localFileName nn up) with
        | some err => rw [(c3 hc hg err hcp).2] at hf; simp at hf
        | none =>
          have h4 := (c4 hc hg hcp).2
          rw [h4] at hf
          simp at hf
          obtain ⟨rfl, rfl⟩ := hf
          exact ⟨rfl, hcp, h4⟩

theorem transferAsset_ret (w : World) (r : ReleaseAsset) (nn : Option String) (d : String)
    (h : (transferAsset w r nn d).res = .ret ()) :
    ∃ name, (transferAsset w r nn d).trace.filter Event.isEffect =
      [.create name, .httpGet r.BrowserDownloadURL, .copy r.BrowserDownloadURL name,
        .chmod name 0o755] := by
  obtain ⟨h1, h2⟩ := transferAsset_cases w r nn d
  cases hup : w.urlParse r.BrowserDownloadURL with
  | error err =>
    rw [(h1 err hup).1] at h
    simp at h
  | ok up =>
    obtain ⟨c1, c2, c3, c4⟩ := h2 up _ hup rfl
    refine ⟨d ++ "/" ++ localFileName nn up, ?_⟩
    cases hc : w.create (d ++ "/" ++ localFileName nn up) with
    | some err => rw [(c1 err hc).1] at h; simp at h
    | none =>
      cases hg : w.httpGet r.BrowserDownloadURL with
      | some err => rw [(c2 hc err hg).1] at h; simp at h
      | none =>
        cases hcp : w.copy r.BrowserDownloadURL (d ++ "/" ++ localFileName nn up) with
        | some err => rw [(c3 hc hg err hcp).1] at h; simp at h
        | none => exact (c4 hc hg hcp).2

theorem downloadReleaseAsset_of_outDir (w : World) (r : ReleaseAsset)
    (newName newPath : Option String) (outDir : String)
    (hdir : newPath = some outDir ∨ (newPath = none ∧ (binDir w).res = .ret outDir)) :
    (downloadReleaseAsset w r newName newPath).res = (transferAsset w r newName outDir).res ∧
    (downloadReleaseAsset w r newName newPath).trace.filter Event.isEffect =
      (transferAsset w r newName outDir).trace.filter Event.isEffect := by
  unfold downloadReleaseAsset
  rcases hdir with rfl | ⟨rfl, hb⟩
  · simp [Event.isEffect]
  · simp [hb, binDir_filter, Event.isEffect]

theorem downloadReleaseAsset_reach (w : World) (r : ReleaseAsset)
    (newName newPath : Option String) :
    (∃ outDir, (newPath = some outDir ∨ (newPath = none ∧ (binDir w).res = .ret outDir)) ∧
      (downloadReleaseAsset w r newName newPath).trace =
        .download r newName newPath ::
          ((match newPath with
            | none => binDir w
            | some p => pure p).trace ++ (transferAsset w r newName outDir).trace)) ∨
    ((∀ a, (downloadReleaseAsset w r newName newPath).res ≠ .ret a) ∧
      (downloadReleaseAsset w r newName newPath).trace.filter Event.isEffect = []) := by
  unfold downloadReleaseAsset
  cases newPath with
  | some p =>
    left
    exact ⟨p, Or.inl rfl, by simp⟩
  | none =>
    cases hb : (binDir w).res with
    | ret d =>
      left
      exact ⟨d, Or.inr ⟨rfl, rfl⟩, by simp [hb]⟩
    | fatal m =>
      right
      simp [hb, binDir_filter, Event.isEffect]
    | fault m =>
      right
      simp [hb, binDir_filter, Event.isEffect]

/-- C9: in `downloadReleaseAsset` a permission change is made only with mode 0755, only
after the copy into that same path succeeded, and only after create, GET and copy in that
order; a run that returns normally has performed create, GET, copy and chmod in that
order on one path; and when URL parsing, file creation, the GET or the copy fails the run
ends with that step's fatal error and no chmod is attempted. -/
theorem C9_download (w : World) (r : ReleaseAsset) (newName newPath : Option String) :
    (∀ name mode,
        Event.chmod name mode ∈ (downloadReleaseAsset w r newName newPath).trace →
        mode = 0o755 ∧ w.copy r.BrowserDownloadURL name = none ∧
        (downloadReleaseAsset w r newName newPath).trace.filter Event.isEffect =
          [.create name, .httpGet r.BrowserDownloadURL, .copy r.BrowserDownloadURL name,
            .chmod name mode]) ∧
    ((downloadReleaseAsset w r newName newPath).res = .ret () →
        ∃ name, (downloadReleaseAsset w r newName newPath).trace.filter Event.isEffect =
          [.create name, .httpGet r.BrowserDownloadURL, .copy r.BrowserDownloadURL name,
            .chmod name 0o755]) ∧
    (∀ outDir,
        (newPath = some outDir ∨ (newPath = none ∧ (binDir w).res = .ret outDir)) →
        (∀ err, w.urlParse r.BrowserDownloadURL = .error err →
          (downloadReleaseAsset w r newName newPath).res =
            .fatal ("Error: Could not parse URL: " ++ err) ∧
          (downloadReleaseAsset w r newName newPath).trace.filter Event.isEffect = []) ∧
        (∀ up outName, w.urlParse r.BrowserDownloadURL = .ok up →
          outName = outDir ++ "/" ++ localFileName newName up →
          (∀ err, w.create outName = some err →
            (downloadReleaseAsset w r newName newPath).res =
              .fatal ("Error: Could not create local file: " ++ err) ∧
            (downloadReleaseAsset w r newName newPath).trace.filter Event.isEffect =
              [.create outName]) ∧
          (w.create outName = none → ∀ err, w.httpGet r.BrowserDownloadURL = some err →
            (downloadReleaseAsset w r newName newPath).res =
              .fatal ("Error: Could not get remote file: " ++ err) ∧
            (downloadReleaseAsset w r newName newPath).trace.filter Event.isEffect =
              [.create outName, .httpGet r.BrowserDownloadURL]) ∧
          (w.create outName = none → w.httpGet r.BrowserDownloadURL = none →
            ∀ err, w.copy r.BrowserDownloadURL outName = some err →
            (downloadReleaseAsset w r newName newPath).res =
              .fatal ("Error: Could not copy local file: " ++ err) ∧
            (downloadReleaseAsset w r newName newPath).trace.filter Event.isEffect =
              [.create outName, .httpGet r.BrowserDownloadURL,
                .copy r.BrowserDownloadURL outName]) ∧
          (w.create outName = none → w.httpGet r.BrowserDownloadURL = none →
            w.copy r.BrowserDownloadURL outName = none →
            ((downloadReleaseAsset w r newName newPath).res = .ret () ∨
              (downloadReleaseAsset w r newName newPath).res =
                .fatal ("Error: Could not make " ++ outName ++
                  " executable. Try with (sudo)?")) ∧
            (downloadReleaseAsset w r newName newPath).trace.filter Event.isEffect =
              [.create outName, .httpGet r.BrowserDownloadURL,
                .copy r.BrowserDownloadURL outName, .chmod outName 0o755]))) := by
  refine ⟨?_, ?_, ?_⟩
  · intro name mode hmem
    rcases downloadReleaseAsset_reach w r newName newPath with ⟨d, hdir, htr⟩ | ⟨-, hnil⟩
    · obtain ⟨-, hf⟩ := downloadReleaseAsset_of_outDir w r newName newPath d hdir
      rw [hf]
      apply transferAsset_chmod
      rw [htr] at hmem
      simp only [List.mem_cons, List.mem_append, reduceCtorEq, false_or] at hmem
      rcases hmem with hmem | hmem
      · exfalso
        cases newPath with
        | none =>
          have := (binDir_events w _ hmem).1
          simp [Event.isDownload] at this
        | some p => simp at hmem
      · exact hmem
    · exfalso
      have hf : Event.chmod name mode ∈
          (downloadReleaseAsset w r newName newPath).trace.filter Event.isEffect :=
        List.mem_filter.mpr ⟨hmem, rfl⟩
      rw [hnil] at hf
      simp at hf
  · intro hret
    rcases downloadReleaseAsset_reach w r newName newPath with ⟨d, hdir, -⟩ | ⟨hne, -⟩
    · obtain ⟨hres, hf⟩ := downloadReleaseAsset_of_outDir w r newName newPath d hdir
      rw [hf]
      exact transferAsset_ret w r newName d (hres ▸ hret)
    · exact absurd hret (hne ())
  · intro outDir hdir
    obtain ⟨hres, hf⟩ := downloadReleaseAsset_of_outDir w r newName newPath outDir hdir
    rw [hres, hf]
    exact transferAsset_cases w r newName outDir

/-! ## Instances on the sample inputs -/

/-- Instance of C1: `" tobyjoe/grab "` leads to the lookup of `tobyjoe`, `grab`; the single
segment `"tobyjoe"` leads to the usage text and no request. -/
theorem C1_arguments_witness :
    Event.apiRepo "tobyjoe" "grab" ∈
        (main sampleWorld ⟨none, none, true, [" tobyjoe/grab "]⟩).trace ∧
    ((main sampleWorld ⟨none, none, true, ["tobyjoe"]⟩).res = .fatal USAGE ∧
      ∀ e ∈ (main sampleWorld ⟨none, none, true, ["tobyjoe"]⟩).trace, e.isApi = false) :=
  ⟨((C1_arguments sampleWorld ⟨none, none, true, [" tobyjoe/grab "]⟩).1 "tobyjoe" "grab").2
      ⟨" tobyjoe/grab ", [], "tobyjoe", "grab", rfl, by decide, by decide, by decide,
        by decide, by decide⟩,
    (C1_arguments sampleWorld ⟨none, none, true, ["tobyjoe"]⟩).2 (by
      rintro ⟨s, rest, a, b, h, hs, -⟩
      have hs0 : s = "tobyjoe" := by
        simp only [List.cons.injEq] at h
        exact h.1.symm
      subst hs0
      have hsplit : Split (TrimSpace "tobyjoe") = ["tobyjoe"] := by decide
      rw [hsplit] at hs
      simp at hs)⟩

/-- Instance of C10: a successful lookup, and lookups answered with no response, with
status 404 and with status 500, each with the full text of its message. -/
theorem C10_lookup_witness :
    (parseArgs dryCommand.args).res = .ret ("tobyjoe", "grab") ∧
    Event.apiLatest "tobyjoe" "grab" ∈ (main sampleWorld dryCommand).trace ∧
    (main (worldWithRepo (.fail none "no route to host")) dryCommand).res =
      .fatal "Error: Cannot reach github.com/tobyjoe/grab" ∧
    (main (worldWithRepo (.fail (some 404) "404 Not Found")) dryCommand).res =
      .fatal "Error: Project does not exist: github.com/tobyjoe/grab" ∧
    (main (worldWithRepo (.fail (some 500) "500 Server Error")) dryCommand).res =
      .fatal "Error: Unknown error (500) reaching: github.com/tobyjoe/grab" :=
  ⟨by decide,
    (C10_lookup sampleWorld dryCommand "tobyjoe" "grab" (by decide)).1 rfl,
    ((C10_lookup (worldWithRepo (.fail none "no route to host")) dryCommand
      "tobyjoe" "grab" (by decide)).2.1 "no route to host" rfl).1,
    ((C10_lookup (worldWithRepo (.fail (some 404) "404 Not Found")) dryCommand
      "tobyjoe" "grab" (by decide)).2.2.1 "404 Not Found" rfl).1,
    ((C10_lookup (worldWithRepo (.fail (some 500) "500 Server Error")) dryCommand
      "tobyjoe" "grab" (by decide)).2.2.2 500 "500 Server Error" (by decide) rfl).1⟩

/-- Instance of C2: the sample world, whose latest release exists, and the same world
with the latest-release request answered 404, where the first tag is `v1`. -/
theorem C2_resolution_witness :
    ((resolveRelease sampleWorld "tobyjoe" "grab").res = .ret (some ⟨[sampleAsset]⟩) ∧
      ∀ e ∈ (main sampleWorld dryCommand).trace, e.isTagRequest = false) ∧
    ((resolveRelease (worldWithLatest (.fail (some 404) "404 Not Found"))
        "tobyjoe" "grab").res = .ret (some ⟨[sampleAsset2]⟩) ∧
      ∀ o r t, Event.apiByTag o r t ∈
        (main (worldWithLatest (.fail (some 404) "404 Not Found")) dryCommand).trace →
        t = "v1") :=
  ⟨⟨((C2_resolution sampleWorld dryCommand "tobyjoe" "grab" (by decide) rfl).1
        ⟨[sampleAsset]⟩ rfl).1,
      ((C2_resolution sampleWorld dryCommand "tobyjoe" "grab" (by decide) rfl).1
        ⟨[sampleAsset]⟩ rfl).2.2.2⟩,
    ⟨((C2_resolution (worldWithLatest (.fail (some 404) "404 Not Found")) dryCommand
        "tobyjoe" "grab" (by decide) rfl).2 "404 Not Found" ⟨"v1", "0a1b2c"⟩
        [⟨"v0", "3d4e5f"⟩] ⟨[sampleAsset2]⟩ rfl rfl rfl).1,
      ((C2_resolution (worldWithLatest (.fail (some 404) "404 Not Found")) dryCommand
        "tobyjoe" "grab" (by decide) rfl).2 "404 Not Found" ⟨"v1", "0a1b2c"⟩
        [⟨"v0", "3d4e5f"⟩] ⟨[sampleAsset2]⟩ rfl rfl rfl).2.2.2⟩⟩

/-- Instance of C3: with two assets and the input line `2`, the second asset is selected
and it is the one listed with number 2. -/
theorem C3_selection_witness :
    Atoi (TrimSpace (ReadString (worldWithStdin "2\n").stdin)) = some 2 ∧
    ∃ a, [sampleAsset, sampleAsset2].get? ((2 : Int) - 1).toNat = some a ∧
      (selectAsset (worldWithStdin "2\n") (some ⟨[sampleAsset, sampleAsset2]⟩)).res =
        .ret a ∧
      (selectAsset (worldWithStdin "2\n") (some ⟨[sampleAsset, sampleAsset2]⟩)).trace =
        .log "Release Assets:" :: listAssets 0 [sampleAsset, sampleAsset2] ++
          [.out "Which asset would you like to download? ", .readInput, .out "\n"] ∧
      (listAssets 0 [sampleAsset, sampleAsset2]).get? ((2 : Int) - 1).toNat =
        some (.log (" (" ++ toString (2 : Int).toNat ++ ") " ++ a.Name ++ " ("
          ++ a.BrowserDownloadURL ++ ")")) :=
  ⟨by decide,
    ((C3_selection (worldWithStdin "2\n") ⟨[sampleAsset, sampleAsset2]⟩).2.2
      (by decide)).2.2 2 (by decide) (by decide) (by decide)⟩

/-- Instance of C4: the dry run on the sample world performs nothing of the download,
and the same run without `-d` enters `downloadReleaseAsset` once with the sample asset. -/
theorem C4_dry_run_witness :
    (∀ e ∈ (main sampleWorld dryCommand).trace, e.isDownload = false) ∧
    (main sampleWorld fullCommand).trace.filter Event.isCall =
      [.download sampleAsset (some "barg") (some "/tmp")] :=
  ⟨(C4_dry_run sampleWorld dryCommand).1 rfl,
    (C4_dry_run sampleWorld fullCommand).2 rfl "tobyjoe" "grab" (some ⟨[sampleAsset]⟩)
      sampleAsset (by decide) rfl (by decide) (by decide)⟩

/-- Instance of C9: on the sample world the download returns after create, GET, copy and
chmod 0755 on `/tmp/barg`; where no file can be created it ends with the creation error
after the create alone. -/
theorem C9_download_witness :
    (∃ name, (downloadReleaseAsset sampleWorld sampleAsset (some "barg")
        (some "/tmp")).trace.filter Event.isEffect =
      [.create name, .httpGet sampleAsset.BrowserDownloadURL,
        .copy sampleAsset.BrowserDownloadURL name, .chmod name 0o755]) ∧
    ((downloadReleaseAsset worldNoCreate sampleAsset (some "barg") (some "/tmp")).res =
        .fatal ("Error: Could not create local file: " ++ "permission denied") ∧
      (downloadReleaseAsset worldNoCreate sampleAsset (some "barg")
        (some "/tmp")).trace.filter Event.isEffect = [.create "/tmp/barg"]) :=
  ⟨(C9_download sampleWorld sampleAsset (some "barg") (some "/tmp")).2.1 (by decide),
    (((C9_download worldNoCreate sampleAsset (some "barg") (some "/tmp")).2.2 "/tmp"
      (Or.inl rfl)).2 "/tobyjoe/grab/releases/download/v1/grab" "/tmp/barg" rfl
      (by decide)).1 "permission denied" rfl⟩

/-! ## Runs that leave the documented behaviour -/

/-- C5 at failing inputs: when the latest-release request gets no response, or a response
with status 500, the run does not end with a fatal error message but with a nil
dereference, at `resp.StatusCode` (line 95) and at `release.Assets` (line 112); in the
second run the selection step is reached with a nil release. -/
theorem C5_latest_release_fault :
    (main (worldWithLatest (.fail none "dial tcp: i/o timeout")) dryCommand).res =
      .fault "nil pointer dereference" ∧
    (main (worldWithLatest (.fail (some 500) "500 Server Error")) dryCommand).res =
      .fault "nil pointer dereference" ∧
    (resolveRelease (worldWithLatest (.fail (some 500) "500 Server Error"))
      "tobyjoe" "grab").res = .ret none := by
  decide

/-- C6 at failing inputs: with two assets, the input lines `0`, `3` and `-1` parse as
integers and the list is indexed outside `0 .. 1`: the run ends with an index fault, not
with the fatal error and not with an asset of the list. -/
theorem C6_index_fault :
    (selectAsset (worldWithStdin "0\n") (some ⟨[sampleAsset, sampleAsset2]⟩)).res =
      .fault "index out of range" ∧
    (selectAsset (worldWithStdin "3\n") (some ⟨[sampleAsset, sampleAsset2]⟩)).res =
      .fault "index out of range" ∧
    (selectAsset (worldWithStdin "-1\n") (some ⟨[sampleAsset, sampleAsset2]⟩)).res =
      .fault "index out of range" := by
  decide

/-- C7 at a failing input: run without `-r`, `downloadReleaseAsset` receives the address
of the empty default, so the local file name is empty and the created path is `/tmp/`,
although the final segment of the download URL is `grab`. -/
theorem C7_name_without_r :
    (main sampleWorld noRenameCommand).trace.filter Event.isCall =
      [.download sampleAsset (some "") (some "/tmp")] ∧
    (main sampleWorld noRenameCommand).trace.filter Event.isEffect =
      [.create "/tmp/", .httpGet sampleAsset.BrowserDownloadURL,
        .copy sampleAsset.BrowserDownloadURL "/tmp/", .chmod "/tmp/" 0o755] ∧
    (pathSplit "/tobyjoe/grab/releases/download/v1/grab").2 = "grab" := by
  decide

/-- C8 at a failing input: run without `-p` on Linux, `downloadReleaseAsset` receives the
address of the empty default, so the output directory is empty and the created path is
`/barg`, although `binDir` gives `/usr/local/bin`. -/
theorem C8_path_without_p :
    (main sampleWorld noPathCommand).trace.filter Event.isCall =
      [.download sampleAsset (some "barg") (some "")] ∧
    (main sampleWorld noPathCommand).trace.filter Event.isEffect =
      [.create "/barg", .httpGet sampleAsset.BrowserDownloadURL,
        .copy sampleAsset.BrowserDownloadURL "/barg", .chmod "/barg" 0o755] ∧
    (binDir sampleWorld).res = .ret "/usr/local/bin" := by
  decide

end Grab
